import Mathlib

/-!
Verification of the synchronization core of the ILIAS Pegasus app,
shallowly embedded from `src/services/synchronization.service.ts`.

The embedding models:
* the quota/size partitioning of file downloads (`checkForFileDownloads`),
* the pending-request stack of the recursive sync coordinator
  (`loadOfflineObjectRecursive`),
* the offline queue enqueue step (`addObjectsToSyncQueue` together with
  `updateOfflineSyncStatusMessage`),
* the last-sync label computation (`updateLastSync`),
* the shallow-load control flow (`liveLoad` / `executeLiveLoad` /
  `syncStarted` / `syncEnded`), with the process-wide flag record and the
  published events made explicit,
* the container download aggregation (`downloadContainerContent`), and
* `hasUnfinishedSync` over an explicit list of session records.

Asynchronous effects are modelled by explicit state passing; a promise that
may reject is an `Except String` value.  External collaborators (database,
file transfer, content listing) are parameters recording whether each call
succeeds.
-/

namespace Pegasus

/-- Content node, with the fields the synchronization service reads.
`fileSize` models `parseInt(obj.data.fileSize, 10)` as a natural number. -/
structure ILIASObject where
  objId : Nat
  type : String
  needsDownload : Bool
  fileSize : Nat
  title : String
deriving DecidableEq, Repr

/-- User settings read by `checkForFileDownloads`: `quotaSize` and
`downloadSize`, both in megabytes as in the source. -/
structure Settings where
  quotaSize : Nat
  downloadSize : Nat
deriving DecidableEq, Repr

/-- Reasons of the `LeftOutReason` enum of the source. -/
inductive LeftOutReason where
  | NoWLAN
  | FileTooBig
  | QuotaExceeded
deriving DecidableEq, Repr

/-- An entry of the `filesTooBig` / `noMoreSpace` lists: an object paired
with the reason it was left out. -/
structure LeftOut where
  object : ILIASObject
  reason : LeftOutReason
deriving DecidableEq, Repr

/-- The `SyncResults` class of the source, without the promise list (file
download outcomes are modelled separately in `downloadContainerContent`). -/
structure SyncResults where
  totalObjects : List ILIASObject
  objectsDownloaded : List ILIASObject
  objectsUnchanged : List ILIASObject
  objectsLeftOut : List LeftOut
deriving DecidableEq, Repr

/-- Accumulators of the classification loop of `checkForFileDownloads`
(lines 329-332 of the source): `downloads`, `filesAlreadySynced`,
`filesTooBig`, `noMoreSpace`. -/
structure Classified where
  downloads : List ILIASObject
  alreadySynced : List ILIASObject
  tooBig : List LeftOut
  noSpace : List LeftOut
deriving DecidableEq, Repr

/-- The `fileObjects.forEach` loop of `checkForFileDownloads`
(lines 344-360): for each object, first the `needsDownload` test, then the
quota test `currentlyUsedSpace + fileSize <= availableSpace`, and only
inside its positive branch the per-file test
`fileSize <= settings.downloadSize * 1000 * 1000`.  `used` threads the
mutable `currentlyUsedSpace`, which grows only on accepted downloads. -/
def classifyFiles (availableSpace perFileLimit : Nat) :
    List ILIASObject → Nat → Classified
  | [], _ => ⟨[], [], [], []⟩
  | o :: rest, used =>
    if o.needsDownload then
      if used + o.fileSize ≤ availableSpace then
        if o.fileSize ≤ perFileLimit then
          let c := classifyFiles availableSpace perFileLimit rest (used + o.fileSize)
          { c with downloads := o :: c.downloads }
        else
          let c := classifyFiles availableSpace perFileLimit rest used
          { c with tooBig := ⟨o, LeftOutReason.FileTooBig⟩ :: c.tooBig }
      else
        let c := classifyFiles availableSpace perFileLimit rest used
        { c with noSpace := ⟨o, LeftOutReason.QuotaExceeded⟩ :: c.noSpace }
    else
      let c := classifyFiles availableSpace perFileLimit rest used
      { c with alreadySynced := o :: c.alreadySynced }

/-- The pure content of `checkForFileDownloads` (lines 322-393): filter the
input to file-type objects, classify them against the quota
(`settings.quotaSize * 1000 * 1000`) and the per-file limit
(`settings.downloadSize * 1000 * 1000`) starting from the currently used
disk space, and return the `SyncResults` with
`objectsLeftOut = filesTooBig.concat(noMoreSpace)`. -/
def checkForFileDownloads (iliasObjects : List ILIASObject)
    (settings : Settings) (space : Nat) : SyncResults :=
  let availableSpace := settings.quotaSize * 1000 * 1000
  let fileObjects := iliasObjects.filter (fun o => o.type == "file")
  let c := classifyFiles availableSpace (settings.downloadSize * 1000 * 1000)
    fileObjects space
  { totalObjects := fileObjects
    objectsDownloaded := c.downloads
    objectsUnchanged := c.alreadySynced
    objectsLeftOut := c.tooBig ++ c.noSpace }

theorem classifyFiles_count (a l : Nat) (x : ILIASObject) :
    ∀ (objs : List ILIASObject) (used : Nat),
      ((classifyFiles a l objs used).downloads ++
        (classifyFiles a l objs used).alreadySynced ++
        ((classifyFiles a l objs used).tooBig ++
          (classifyFiles a l objs used).noSpace).map LeftOut.object).count x
        = objs.count x
  | [], _ => by simp [classifyFiles]
  | o :: rest, used => by
    by_cases hn : o.needsDownload
    · by_cases hq : used + o.fileSize ≤ a
      · by_cases hl : o.fileSize ≤ l
        · have ih := classifyFiles_count a l x rest (used + o.fileSize)
          simp only [classifyFiles, hn, hq, hl, if_true, List.map_cons,
            List.map_append, List.cons_append, List.append_assoc,
            List.count_append, List.count_cons] at ih ⊢
          omega
        · have ih := classifyFiles_count a l x rest used
          simp [classifyFiles, hn, hq, hl, List.count_append, List.count_cons,
            List.append_assoc] at ih ⊢
          omega
      · have ih := classifyFiles_count a l x rest used
        simp [classifyFiles, hn, hq, List.count_append, List.count_cons,
          List.append_assoc] at ih ⊢
        omega
    · have ih := classifyFiles_count a l x rest used
      simp [classifyFiles, hn, List.count_append, List.count_cons,
        List.append_assoc] at ih ⊢
      omega

theorem classifyFiles_perm (a l : Nat) (objs : List ILIASObject) (used : Nat) :
    ((classifyFiles a l objs used).downloads ++
      (classifyFiles a l objs used).alreadySynced ++
      ((classifyFiles a l objs used).tooBig ++
        (classifyFiles a l objs used).noSpace).map LeftOut.object).Perm objs :=
  List.perm_iff_count.mpr (fun x => classifyFiles_count a l x objs used)

theorem classifyFiles_downloads_quota (a l : Nat) :
    ∀ (objs : List ILIASObject) (used k : Nat), 0 < k →
      k ≤ (classifyFiles a l objs used).downloads.length →
      used + (((classifyFiles a l objs used).downloads.take k).map
        ILIASObject.fileSize).sum ≤ a
  | [], used, k, hk, hlen => by
    simp [classifyFiles] at hlen
    omega
  | o :: rest, used, k, hk, hlen => by
    by_cases hn : o.needsDownload
    · by_cases hq : used + o.fileSize ≤ a
      · by_cases hl : o.fileSize ≤ l
        · simp only [classifyFiles, hn, hq, hl, if_true] at hlen ⊢
          obtain ⟨j, rfl⟩ : ∃ j, k = j + 1 := ⟨k - 1, by omega⟩
          simp only [List.length_cons] at hlen
          simp only [List.take_succ_cons, List.map_cons, List.sum_cons]
          rcases Nat.eq_zero_or_pos j with hj | hj
          · subst hj
            simp only [List.take_zero, List.map_nil, List.sum_nil]
            omega
          · have ih := classifyFiles_downloads_quota a l rest
              (used + o.fileSize) j hj (by omega)
            omega
        · simp only [classifyFiles, hn, hq, hl, if_true, if_false,
            eq_self_iff_true, iff_false, ite_true, ite_false, if_neg hl] at hlen ⊢
          exact classifyFiles_downloads_quota a l rest used k hk hlen
      · simp only [classifyFiles, hn, hq, if_true, ite_true, if_neg hq] at hlen ⊢
        exact classifyFiles_downloads_quota a l rest used k hk hlen
    · simp only [classifyFiles, hn, Bool.false_eq_true, if_false,
        ite_false] at hlen ⊢
      exact classifyFiles_downloads_quota a l rest used k hk hlen

theorem classifyFiles_downloads_size (a l : Nat) :
    ∀ (objs : List ILIASObject) (used : Nat),
      ∀ o ∈ (classifyFiles a l objs used).downloads, o.fileSize ≤ l
  | [], used => by simp [classifyFiles]
  | o :: rest, used => by
    by_cases hn : o.needsDownload
    · by_cases hq : used + o.fileSize ≤ a
      · by_cases hl : o.fileSize ≤ l
        · simp only [classifyFiles, hn, hq, hl, if_true, List.mem_cons]
          rintro x (rfl | hx)
          · exact hl
          · exact classifyFiles_downloads_size a l rest (used + o.fileSize) x hx
        · simp only [classifyFiles, hn, hq, hl, if_true, ite_true, ite_false,
            if_neg hl]
          exact classifyFiles_downloads_size a l rest used
      · simp only [classifyFiles, hn, hq, if_true, ite_true, if_neg hq]
        exact classifyFiles_downloads_size a l rest used
    · simp only [classifyFiles, hn, Bool.false_eq_true, if_false, ite_false]
      exact classifyFiles_downloads_size a l rest used

/-- C1: `checkForFileDownloads` splits exactly the file-type subset of its
input into the four groups (scheduled downloads, already synced, too large,
quota exceeded) — their concatenation is a permutation of the file-type
filter of the input, so every file-type node lands in exactly one group;
the running total of the starting used bytes plus the sizes of the
scheduled downloads taken in input order never exceeds the quota; and every
scheduled download's size is at most the per-file limit. -/
theorem checkForFileDownloads_partitions_files (objs : List ILIASObject)
    (settings : Settings) (space : Nat) :
    (((checkForFileDownloads objs settings space).objectsDownloaded ++
      (checkForFileDownloads objs settings space).objectsUnchanged ++
      ((checkForFileDownloads objs settings space).objectsLeftOut.map
        LeftOut.object)).Perm (objs.filter (fun o => o.type == "file")))
    ∧ (∀ k, 0 < k →
        k ≤ (checkForFileDownloads objs settings space).objectsDownloaded.length →
        space + ((((checkForFileDownloads objs settings space).objectsDownloaded).take k).map
          ILIASObject.fileSize).sum ≤ settings.quotaSize * 1000 * 1000)
    ∧ (∀ o ∈ (checkForFileDownloads objs settings space).objectsDownloaded,
        o.fileSize ≤ settings.downloadSize * 1000 * 1000) := by
  refine ⟨?_, ?_, ?_⟩
  · simpa [checkForFileDownloads] using
      classifyFiles_perm (settings.quotaSize * 1000 * 1000)
        (settings.downloadSize * 1000 * 1000)
        (objs.filter (fun o => o.type == "file")) space
  · intro k hk hlen
    simp only [checkForFileDownloads] at hlen ⊢
    exact classifyFiles_downloads_quota _ _ _ space k hk hlen
  · intro o ho
    simp only [checkForFileDownloads] at ho
    exact classifyFiles_downloads_size _ _ _ space o ho

/-- A file node used in concrete counterexamples: a file of 5 bytes that
still needs download. -/
def bigFile : ILIASObject :=
  ⟨1, "file", true, 5, "big"⟩

/-- C2 counterexample: with quota 0 MB and per-file limit 0 MB, the 5-byte
file exceeds the per-file limit, yet the code classifies it as
quota-exceeded, not too-large — the quota comparison is made first, so a
node that exceeds the per-file limit is not placed in the too-large group
when the quota check already fails. -/
theorem checkForFileDownloads_quota_first_cex :
    (0 : Nat) * 1000 * 1000 < bigFile.fileSize ∧
    (checkForFileDownloads [bigFile] ⟨0, 0⟩ 0).objectsLeftOut =
      [⟨bigFile, LeftOutReason.QuotaExceeded⟩] := by
  decide

/-- C2 amended: the classification loop checks the quota before the
per-file limit.  A needs-download node that would exceed the quota is
placed in the quota-exceeded group regardless of the per-file limit, and a
node is placed in the too-large group only when it passes the quota check
but exceeds the per-file limit. -/
theorem classifyFiles_quota_before_limit (a l used : Nat) (o : ILIASObject)
    (rest : List ILIASObject) (hneed : o.needsDownload = true) :
    (a < used + o.fileSize →
      classifyFiles a l (o :: rest) used =
        { classifyFiles a l rest used with
            noSpace := ⟨o, LeftOutReason.QuotaExceeded⟩ ::
              (classifyFiles a l rest used).noSpace })
    ∧ (used + o.fileSize ≤ a → l < o.fileSize →
      classifyFiles a l (o :: rest) used =
        { classifyFiles a l rest used with
            tooBig := ⟨o, LeftOutReason.FileTooBig⟩ ::
              (classifyFiles a l rest used).tooBig }) := by
  constructor
  · intro hq
    simp [classifyFiles, hneed, Nat.not_le.mpr hq]
  · intro hq hl
    simp [classifyFiles, hneed, hq, Nat.not_le.mpr hl]

/-- Witness for the amended C2 theorem at a concrete input: quota 0,
limit 0, the 5-byte file, empty tail. -/
theorem classifyFiles_quota_before_limit_witness :
    classifyFiles 0 0 [bigFile] 0 =
      { classifyFiles 0 0 ([] : List ILIASObject) 0 with
          noSpace := [⟨bigFile, LeftOutReason.QuotaExceeded⟩] } :=
  (classifyFiles_quota_before_limit 0 0 0 bigFile [] rfl).1 (by decide)

/-- A request arriving while the recursive chain is busy is pushed onto
`recursiveSyncQueue` (line 170 of the source); `Array.push` appends at the
end. -/
def pushRequest (queue : List ILIASObject) (o : ILIASObject) :
    List ILIASObject :=
  queue ++ [o]

/-- Completion handler of `downloadContainerContent` inside
`loadOfflineObjectRecursive` (lines 178-193): on a fulfilled result, if the
pending queue is non-empty it pops the last entry (`Array.pop`) and starts
that request's subtree download (the popped object is returned as the
started request); on a rejected result the `catch` only re-rejects, touching
neither the queue nor any pending request.  Result:
(queue after, request started, outcome passed on). -/
def chainCompleteStep (outcome : Except String SyncResults)
    (queue : List ILIASObject) :
    List ILIASObject × Option ILIASObject × Except String SyncResults :=
  match outcome with
  | Except.ok r =>
    if 0 < queue.length then (queue.dropLast, queue.getLast?, Except.ok r)
    else (queue, none, Except.ok r)
  | Except.error e => (queue, none, Except.error e)

/-- Order in which pending requests get started when every chain link
completes successfully: repeatedly apply the success case of
`chainCompleteStep`, collecting the request each pop starts, until the
pending queue is empty. -/
def serveChain (queue : List ILIASObject) : List ILIASObject :=
  match h : queue.getLast? with
  | none => []
  | some x => x :: serveChain queue.dropLast
termination_by queue.length
decreasing_by
  have hne : queue ≠ [] := by
    intro hq
    subst hq
    simp at h
  have hpos : 0 < queue.length := List.length_pos.mpr hne
  simp only [List.length_dropLast]
  omega

theorem serveChain_nil : serveChain [] = [] := by
  simp [serveChain]

theorem serveChain_concat (queue : List ILIASObject) (x : ILIASObject) :
    serveChain (queue ++ [x]) = x :: serveChain queue := by
  rw [serveChain]
  split
  · rename_i h
    rw [List.getLast?_concat] at h
    cases h
  · rename_i y h
    rw [List.getLast?_concat] at h
    injection h with h2
    subst h2
    rw [List.dropLast_concat]

theorem serveChain_reverse (queue : List ILIASObject) :
    serveChain queue = queue.reverse := by
  induction queue using List.reverseRecOn with
  | nil => exact serveChain_nil
  | append_singleton q x ih =>
    rw [serveChain_concat, ih, List.reverse_append]
    simp

theorem serveChain_eq_pop (queue : List ILIASObject) (r : SyncResults) :
    serveChain queue =
      match (chainCompleteStep (Except.ok r) queue).2.1 with
      | none => []
      | some x => x :: serveChain (chainCompleteStep (Except.ok r) queue).1 := by
  induction queue using List.reverseRecOn with
  | nil => simp [serveChain_nil, chainCompleteStep]
  | append_singleton q x ih =>
    have hpos : 0 < (q ++ [x]).length := by simp
    simp [chainCompleteStep, hpos, List.getLast?_concat, List.dropLast_concat,
      serveChain_concat]

/-- C3: requests that arrive while a chain is active are pushed one at a
time onto the pending stack and, once the active request `active`
completes (successfully, link after link), they are started in reverse
arrival order: the overall service order is `active` first, then the
arrivals last-in first-out.  In particular B then C arriving while A runs
gives the order A, C, B. -/
theorem pending_requests_served_in_reverse_arrival_order
    (active : ILIASObject) (arrivals : List ILIASObject) :
    active :: serveChain (arrivals.foldl pushRequest []) =
      active :: arrivals.reverse := by
  have hfold : ∀ (l : List ILIASObject) (acc : List ILIASObject),
      l.foldl pushRequest acc = acc ++ l := by
    intro l
    induction l with
    | nil => intro acc; simp
    | cons a as ih =>
      intro acc
      simp [pushRequest, ih]
  rw [hfold]
  simp [serveChain_reverse]

/-- C4 counterexample: when the active sync fails (`Except.error`), the
completion handler does not pop the non-empty pending queue and starts no
request — the chain does not continue on failure. -/
theorem chainCompleteStep_failure_no_pop_cex :
    chainCompleteStep (Except.error "listing failed") [bigFile] =
      ([bigFile], none, Except.error "listing failed") := by
  rfl

/-- C4 amended: the coordinator pops the top of the pending stack and
starts that request only when the active sync succeeds; when it fails the
rejection is passed through unchanged and the pending queue is left as it
was, so the chain stalls. -/
theorem chainCompleteStep_pops_only_on_success (r : SyncResults)
    (e : String) (queue : List ILIASObject) (hne : queue ≠ []) :
    chainCompleteStep (Except.ok r) queue =
      (queue.dropLast, queue.getLast?, Except.ok r)
    ∧ (chainCompleteStep (Except.ok r) queue).2.1 = queue.getLast?
    ∧ chainCompleteStep (Except.error e) queue =
      (queue, none, Except.error e) := by
  have hpos : 0 < queue.length := List.length_pos.mpr hne
  refine ⟨?_, ?_, rfl⟩
  · simp [chainCompleteStep, hpos]
  · simp [chainCompleteStep, hpos]

/-- Witness for the amended C4 theorem: a singleton pending queue, a
concrete successful summary and a concrete error. -/
theorem chainCompleteStep_pops_only_on_success_witness :
    chainCompleteStep (Except.ok ⟨[], [], [], []⟩) [bigFile] =
      ([bigFile].dropLast, [bigFile].getLast?, Except.ok ⟨[], [], [], []⟩)
    ∧ (chainCompleteStep (Except.ok ⟨[], [], [], []⟩) [bigFile]).2.1 =
      [bigFile].getLast?
    ∧ chainCompleteStep (Except.error "listing failed") [bigFile] =
      ([bigFile], none, Except.error "listing failed") :=
  chainCompleteStep_pops_only_on_success ⟨[], [], [], []⟩ "listing failed"
    [bigFile] (by decide)

/-- Instance state of the offline queue drainer: the fields
`syncOfflineQueue`, `syncOfflineQueueCnt` and the process-wide
`loadingOfflineContent` flag. -/
structure DrainState where
  syncOfflineQueue : List ILIASObject
  syncOfflineQueueCnt : Nat
  loadingOfflineContent : Bool
deriving DecidableEq, Repr

/-- Status message of `updateOfflineSyncStatusMessage` (lines 145-153).
The source reads `this.syncOfflineQueue[this.syncOfflineQueueCnt].title`;
when that index is out of range the element is `undefined` and reading
`.title` throws a TypeError, modelled by `none`. -/
def updateOfflineSyncStatusMessage (s : DrainState) : Option String :=
  match s.syncOfflineQueue[s.syncOfflineQueueCnt]? with
  | none => none
  | some o =>
    some ("object-list.downloading " ++ toString (s.syncOfflineQueueCnt + 1)
      ++ "/" ++ toString s.syncOfflineQueue.length ++ " \"" ++ o.title ++ "\"")

/-- Enqueue step `addObjectsToSyncQueue` (lines 104-110): concatenate the
new objects onto the queue, refresh the status message, and invoke
`processOfflineSyncQueue` only when `loadingOfflineContent` is not set.
The returned Bool records whether the drain was invoked; a thrown
TypeError from the status update rejects the call before any drain. -/
def addObjectsToSyncQueue (iliasObjects : List ILIASObject)
    (s : DrainState) : Except String (DrainState × Bool) :=
  let s1 : DrainState :=
    { s with syncOfflineQueue := s.syncOfflineQueue ++ iliasObjects }
  match updateOfflineSyncStatusMessage s1 with
  | none =>
    Except.error "TypeError: cannot read property title of undefined"
  | some _ => Except.ok (s1, !s1.loadingOfflineContent)

/-- Initial state of the service: empty queue, zero cursor, no drain
active. -/
def emptyDrainState : DrainState :=
  ⟨[], 0, false⟩

/-- C5 counterexample: on the initial empty state, `enqueue([])` does not
complete without error — the status update reads the missing element at
index 0 of the empty queue and the call fails. -/
theorem addObjectsToSyncQueue_empty_fails_cex :
    addObjectsToSyncQueue [] emptyDrainState =
      Except.error "TypeError: cannot read property title of undefined" := by
  rfl

/-- C5 amended: when a drain is already active and the cursor is within
the queue, `enqueue([])` leaves the queue state unchanged, starts no
drain, and completes without error; but when the cursor is out of range —
in particular on the initial empty state — the status-message update reads
a missing queue element and the call fails instead of completing. -/
theorem addObjectsToSyncQueue_empty_noop_when_drain_active (s : DrainState)
    (hbusy : s.loadingOfflineContent = true)
    (hcur : s.syncOfflineQueueCnt < s.syncOfflineQueue.length) :
    addObjectsToSyncQueue [] s = Except.ok (s, false) := by
  obtain ⟨q, c, b⟩ := s
  simp only at hbusy hcur
  subst hbusy
  have hget : q[c]?.isSome := by
    simp [List.getElem?_eq_getElem hcur]
  rcases Option.isSome_iff_exists.mp hget with ⟨o, ho⟩
  simp [addObjectsToSyncQueue, updateOfflineSyncStatusMessage, ho]

/-- Witness for the amended C5 theorem: a one-element queue being drained,
cursor at 0. -/
theorem addObjectsToSyncQueue_empty_noop_witness :
    addObjectsToSyncQueue [] ⟨[bigFile], 0, true⟩ =
      Except.ok (⟨[bigFile], 0, true⟩, false) :=
  addObjectsToSyncQueue_empty_noop_when_drain_active ⟨[bigFile], 0, true⟩
    rfl (by decide)

/-- Calendar data of a JavaScript `Date` as read by `updateLastSync`:
`getFullYear()`, zero-based `getMonth()`, one-based `getDate()`. -/
structure JSDate where
  fullYear : Int
  month : Nat
  date : Nat
deriving DecidableEq, Repr

/-- Label computation of `updateLastSync` (lines 265-278): "today" when
day, month and year all match, "yesterday" when month and year match and
the last sync's day is today's day minus one, otherwise the literal
`day.month.year` with the month shifted to one-based and no zero padding.
The translated strings are modelled by their keys. -/
def lastSyncLabel (now lastSync : JSDate) : String :=
  let dateString :=
    if now.month = lastSync.month ∧ now.fullYear = lastSync.fullYear then
      if now.date = lastSync.date then "today"
      else if now.date - 1 = lastSync.date then "yesterday"
      else ""
    else ""
  if dateString ≠ "" then dateString
  else
    toString lastSync.date ++ "." ++ toString (lastSync.month + 1) ++ "."
      ++ toString lastSync.fullYear

/-- C6 counterexample: now = 2024-05-01 and last end = 2024-04-30, i.e.
yesterday falls in the previous month; the code produces the literal
"30.4.2024", not "yesterday". -/
theorem lastSyncLabel_month_boundary_cex :
    lastSyncLabel ⟨2024, 4, 1⟩ ⟨2024, 3, 30⟩ = "30.4.2024" ∧
    lastSyncLabel ⟨2024, 4, 1⟩ ⟨2024, 3, 30⟩ ≠ "yesterday" := by
  constructor
  · rfl
  · decide

/-- C6 amended, as a full characterization of the label for every pair of
dates: "today" exactly in the all-equal case, "yesterday" exactly when
month and year match and the day is one less than today's, and in every
remaining case — month or year differ (in particular when yesterday falls
in the previous month or year), or same month and year with the day
neither equal nor exactly one apart — the literal `day.month.year`,
one-based month, no zero padding.  The three cases are exhaustive and
mutually exclusive, so the output is pinned for every input. -/
theorem lastSyncLabel_today_yesterday_literal (now lastS : JSDate) :
    (now.month = lastS.month → now.fullYear = lastS.fullYear →
      now.date = lastS.date → lastSyncLabel now lastS = "today")
    ∧ (now.month = lastS.month → now.fullYear = lastS.fullYear →
      now.date = lastS.date + 1 → lastSyncLabel now lastS = "yesterday")
    ∧ (¬(now.month = lastS.month ∧ now.fullYear = lastS.fullYear ∧
          (now.date = lastS.date ∨ now.date = lastS.date + 1)) →
      lastSyncLabel now lastS =
        toString lastS.date ++ "." ++ toString (lastS.month + 1) ++ "."
          ++ toString lastS.fullYear) := by
  refine ⟨?_, ?_, ?_⟩
  · intro hm hy hd
    simp [lastSyncLabel, hm, hy, hd]
  · intro hm hy hd
    have hne : ¬ now.date = lastS.date := by omega
    have hsub : now.date - 1 = lastS.date := by omega
    simp [lastSyncLabel, hm, hy, hne, hsub]
  · intro h
    by_cases hm : now.month = lastS.month
    · by_cases hy : now.fullYear = lastS.fullYear
      · have hd1 : now.date ≠ lastS.date := fun hd => h ⟨hm, hy, Or.inl hd⟩
        have hd2 : now.date ≠ lastS.date + 1 := fun hd => h ⟨hm, hy, Or.inr hd⟩
        have hsub : ¬ now.date - 1 = lastS.date := by omega
        simp [lastSyncLabel, hm, hy, hd1, hsub]
      · have hcond : ¬ (now.month = lastS.month ∧
            now.fullYear = lastS.fullYear) := fun hc => hy hc.2
        simp [lastSyncLabel, hcond]
    · have hcond : ¬ (now.month = lastS.month ∧
          now.fullYear = lastS.fullYear) := fun hc => hm hc.1
      simp [lastSyncLabel, hcond]

/-- Witness for the amended C6 theorem at the spec's example dates
(now = 2024-05-10 against 2024-05-10, 2024-05-09 and 2024-04-01), plus the
same-month gap case 2024-05-05. -/
theorem lastSyncLabel_today_yesterday_literal_witness :
    lastSyncLabel ⟨2024, 4, 10⟩ ⟨2024, 4, 10⟩ = "today"
    ∧ lastSyncLabel ⟨2024, 4, 10⟩ ⟨2024, 4, 9⟩ = "yesterday"
    ∧ lastSyncLabel ⟨2024, 4, 10⟩ ⟨2024, 3, 1⟩ =
      toString (1 : Nat) ++ "." ++ toString (3 + 1 : Nat) ++ "."
        ++ toString (2024 : Int)
    ∧ lastSyncLabel ⟨2024, 4, 10⟩ ⟨2024, 4, 5⟩ =
      toString (5 : Nat) ++ "." ++ toString (4 + 1 : Nat) ++ "."
        ++ toString (2024 : Int) :=
  ⟨(lastSyncLabel_today_yesterday_literal ⟨2024, 4, 10⟩ ⟨2024, 4, 10⟩).1
      rfl rfl rfl,
    (lastSyncLabel_today_yesterday_literal ⟨2024, 4, 10⟩ ⟨2024, 4, 9⟩).2.1
      rfl rfl rfl,
    (lastSyncLabel_today_yesterday_literal ⟨2024, 4, 10⟩ ⟨2024, 3, 1⟩).2.2
      (by decide),
    (lastSyncLabel_today_yesterday_literal ⟨2024, 4, 10⟩ ⟨2024, 4, 5⟩).2.2
      (by decide)⟩

/-- The process-wide `SynchronizationService.state` record. -/
structure SynchronizationState where
  liveLoading : Bool
  loadingOfflineContent : Bool
  recursiveSyncRunning : Bool
deriving DecidableEq, Repr

/-- Observable world of a shallow load: the flag record plus the events
published so far. -/
structure LiveWorld where
  state : SynchronizationState
  published : List String
deriving DecidableEq, Repr

/-- Success flags of the external calls a `liveLoad` run makes:
`User.currentUser`, the INSERT of `syncStarted`, the data-provider fetch of
`executeLiveLoad`, and the UPDATE plus `updateLastSync` of `syncEnded`
(shared by every `syncEnded` call of the run). -/
structure LiveLoadOutcomes where
  currentUserOk : Bool
  insertOk : Bool
  fetchOk : Bool
  endUpdateOk : Bool
deriving DecidableEq, Repr

def setLiveLoading (w : LiveWorld) (b : Bool) : LiveWorld :=
  { w with state := { w.state with liveLoading := b } }

def publishEvent (w : LiveWorld) (e : String) : LiveWorld :=
  { w with published := w.published ++ [e] }

/-- Session begin `syncStarted` (lines 228-241): synchronously sets
`recursiveSyncRunning` to true, then inserts the open session record; a
database failure rejects. -/
def syncStartedM (o : LiveLoadOutcomes) (w : LiveWorld) :
    Except String Unit × LiveWorld :=
  let w1 : LiveWorld :=
    { w with state := { w.state with recursiveSyncRunning := true } }
  if o.insertOk then (Except.ok (), w1)
  else (Except.error "syncStarted insert failed", w1)

/-- Session end `syncEnded` (lines 246-255): synchronously clears
`recursiveSyncRunning`, then closes the session record and recomputes the
last-sync label; a database failure rejects. -/
def syncEndedM (o : LiveLoadOutcomes) (w : LiveWorld) :
    Except String Unit × LiveWorld :=
  let w1 : LiveWorld :=
    { w with state := { w.state with recursiveSyncRunning := false } }
  if o.endUpdateOk then (Except.ok (), w1)
  else (Except.error "syncEnded update failed", w1)

/-- The body of `executeLiveLoad` (lines 419-428).  The expression
`.catch(await this.syncEnded())` evaluates `await this.syncEnded()` while
the fetch is in flight, so one `syncEnded` runs unconditionally (its
effects linearized here after the fetch starts); a non-function argument
to `.catch` is ignored, so a fetch rejection passes through.  On fetch
success the `.then` handler runs `syncEnded` a second time; if the awaited
`syncEnded` rejected, `executeLiveLoad` itself rejects with that error
(the second `syncEnded` still runs in the background on fetch success). -/
def executeLiveLoadM (o : LiveLoadOutcomes) (w : LiveWorld) :
    Except String Unit × LiveWorld :=
  let r1 := syncEndedM o w
  match r1.1 with
  | Except.error e =>
    let w2 := if o.fetchOk then (syncEndedM o r1.2).2 else r1.2
    (Except.error e, w2)
  | Except.ok _ =>
    if o.fetchOk then
      let r2 := syncEndedM o r1.2
      match r2.1 with
      | Except.ok _ => (Except.ok (), r2.2)
      | Except.error e => (Except.error e, r2.2)
    else (Except.error "fetch failed", r1.2)

/-- The control flow of `liveLoad` (lines 68-87): set `liveLoading`, load
the current user, begin the session, run `executeLiveLoad`; any rejection
from `syncStarted` or `executeLiveLoad` is caught with a `syncEnded`
followed by publishing "sync:complete" and re-rejecting; only on a
fulfilled chain does the final handler clear `liveLoading`. -/
def liveLoadM (o : LiveLoadOutcomes) (w : LiveWorld) :
    Except String Unit × LiveWorld :=
  let w0 := setLiveLoading w true
  if o.currentUserOk then
    let rs := syncStartedM o w0
    match rs.1 with
    | Except.ok _ =>
      let re := executeLiveLoadM o rs.2
      match re.1 with
      | Except.ok _ => (Except.ok (), setLiveLoading re.2 false)
      | Except.error e =>
        let se := syncEndedM o re.2
        match se.1 with
        | Except.ok _ => (Except.error e, publishEvent se.2 "sync:complete")
        | Except.error e2 => (Except.error e2, se.2)
    | Except.error e =>
      let se := syncEndedM o rs.2
      match se.1 with
      | Except.ok _ => (Except.error e, publishEvent se.2 "sync:complete")
      | Except.error e2 => (Except.error e2, se.2)
  else (Except.error "currentUser failed", w0)

/-- All collaborator calls succeed. -/
def allOk : LiveLoadOutcomes :=
  ⟨true, true, true, true⟩

/-- C7 counterexample: with the recursive-chain flag initially set, a
fully successful `liveLoad` run ends with the flag cleared — `liveLoad`
modifies the recursive-chain flag (its session begin/end pair sets and
clears it), not only the shallow-load flag. -/
theorem liveLoad_changes_recursive_flag_cex :
    (⟨⟨false, false, true⟩, []⟩ : LiveWorld).state.recursiveSyncRunning = true
    ∧ (liveLoadM allOk ⟨⟨false, false, true⟩, []⟩).2.state.recursiveSyncRunning
      = false := by
  constructor
  · rfl
  · rfl

/-- C7 amended: `liveLoad` never touches the offline-drain flag on any
path; it does touch the recursive-chain flag — after any run that got past
loading the user the flag ends false regardless of its initial value
(session begin set it, session end cleared it); the shallow-load flag is
set at entry and cleared only on the success path, so it ends false on
success and true on every failure path. -/
theorem liveLoad_flag_effects (o : LiveLoadOutcomes) (w : LiveWorld) :
    ((liveLoadM o w).2.state.loadingOfflineContent
      = w.state.loadingOfflineContent)
    ∧ (o.currentUserOk = true →
      (liveLoadM o w).2.state.recursiveSyncRunning = false)
    ∧ ((liveLoadM o w).1 = Except.ok () →
      (liveLoadM o w).2.state.liveLoading = false)
    ∧ (∀ e, (liveLoadM o w).1 = Except.error e →
      (liveLoadM o w).2.state.liveLoading = true) := by
  obtain ⟨cu, ins, fe, eu⟩ := o
  cases cu <;> cases ins <;> cases fe <;> cases eu <;>
    simp [liveLoadM, executeLiveLoadM, syncStartedM, syncEndedM,
      setLiveLoading, publishEvent, allOk]

/-- Witness for the amended C7 theorem: the all-success run from a world
whose recursive-chain flag is initially set. -/
theorem liveLoad_flag_effects_witness :
    ((liveLoadM allOk ⟨⟨false, false, true⟩, []⟩).2.state.loadingOfflineContent
      = (⟨⟨false, false, true⟩, []⟩ : LiveWorld).state.loadingOfflineContent)
    ∧ (liveLoadM allOk ⟨⟨false, false, true⟩, []⟩).2.state.recursiveSyncRunning
      = false :=
  ⟨(liveLoad_flag_effects allOk ⟨⟨false, false, true⟩, []⟩).1,
    (liveLoad_flag_effects allOk ⟨⟨false, false, true⟩, []⟩).2.1 rfl⟩

/-- C8 counterexample: a fully successful shallow load publishes no event
at all — "sync:complete" is not fired on the success path. -/
theorem liveLoad_success_publishes_nothing_cex :
    (liveLoadM allOk ⟨⟨false, false, false⟩, []⟩).1 = Except.ok ()
    ∧ (liveLoadM allOk ⟨⟨false, false, false⟩, []⟩).2.published = [] := by
  constructor
  · rfl
  · rfl

/-- C8 amended: "sync:complete" is published exactly when the attempt
fails after the user was loaded and the session-end update succeeds (the
session insert or the fetch failed); a successful attempt — and any
failure whose session-end also fails, or a user-load failure — publishes
nothing. -/
theorem liveLoad_publish_characterization (o : LiveLoadOutcomes)
    (w : LiveWorld) :
    (liveLoadM o w).2.published =
      w.published ++
        (if o.currentUserOk && o.endUpdateOk && !(o.insertOk && o.fetchOk)
          then ["sync:complete"] else []) := by
  obtain ⟨cu, ins, fe, eu⟩ := o
  cases cu <;> cases ins <;> cases fe <;> cases eu <;>
    simp [liveLoadM, executeLiveLoadM, syncStartedM, syncEndedM,
      setLiveLoading, publishEvent]

/-- Sequential model of `Promise.all` over the per-file download tasks:
fulfilled when all are, otherwise rejected with a failing task's error. -/
def promiseAll : List (Except String Unit) → Except String Unit
  | [] => Except.ok ()
  | Except.ok _ :: rest => promiseAll rest
  | Except.error e :: _ => Except.error e

/-- The flow of `downloadContainerContent` (lines 196-205): list the
children, append the container itself, partition with
`checkForFileDownloads`, dispatch one download task per scheduled file,
await them together with a `.catch` that only logs — so the aggregate wait
is fulfilled whatever the individual outcomes — then load the learnplaces
and return the summary.  `downloadResult` gives each dispatched task's
outcome; `learnplaceResult` the outcome of the learnplace step. -/
def downloadContainerContent (childrenListing : Except String (List ILIASObject))
    (container : ILIASObject) (settings : Settings) (space : Nat)
    (downloadResult : ILIASObject → Except String Unit)
    (learnplaceResult : Except String Unit) : Except String SyncResults :=
  match childrenListing with
  | Except.error e => Except.error e
  | Except.ok children =>
    let iliasObjects := children ++ [container]
    let syncResults := checkForFileDownloads iliasObjects settings space
    let fileDownloads := syncResults.objectsDownloaded.map downloadResult
    let aggregateWait : Except String Unit :=
      match promiseAll fileDownloads with
      | Except.ok u => Except.ok u
      | Except.error _ => Except.ok ()
    match aggregateWait with
    | Except.error e => Except.error e
    | Except.ok _ =>
      match learnplaceResult with
      | Except.error e => Except.error e
      | Except.ok _ => Except.ok syncResults

/-- C9: whatever the outcomes of the individual file-download tasks — any
number of them may fail — the aggregate wait step of
`downloadContainerContent` completes and the container summary is
returned, never a rejection caused by a file download (children listing
and learnplace loading succeeding). -/
theorem downloadContainerContent_tolerates_download_failures
    (children : List ILIASObject) (container : ILIASObject)
    (settings : Settings) (space : Nat)
    (downloadResult : ILIASObject → Except String Unit) :
    downloadContainerContent (Except.ok children) container settings space
        downloadResult (Except.ok ()) =
      Except.ok (checkForFileDownloads (children ++ [container]) settings space) := by
  simp only [downloadContainerContent]
  cases promiseAll ((checkForFileDownloads (children ++ [container]) settings
      space).objectsDownloaded.map downloadResult) <;> rfl

/-- A stored session row as read by `hasUnfinishedSync`: the user it
belongs to and its in-progress flag. -/
structure SynchronizationRecord where
  userId : Nat
  recursiveSyncRunning : Bool
deriving DecidableEq, Repr

/-- A user as far as `hasUnfinishedSync` reads it. -/
structure User where
  id : Nat
deriving DecidableEq, Repr

/-- The SELECT of `hasUnfinishedSync` (line 293): rows with
`recursiveSyncRunning = 1` and the given `userId`. -/
def queryUnfinished (db : List SynchronizationRecord) (userId : Nat) :
    List SynchronizationRecord :=
  db.filter (fun r => r.recursiveSyncRunning && r.userId == userId)

/-- `hasUnfinishedSync` (lines 288-295): a missing user rejects with
"No user given." before any storage access (the result does not depend on
`db`); a present user resolves with `rows.length > 0` of the query above. -/
def hasUnfinishedSync (user : Option User)
    (db : List SynchronizationRecord) : Except String Bool :=
  match user with
  | none => Except.error "No user given."
  | some u => Except.ok (decide (0 < (queryUnfinished db u.id).length))

/-- C10: with a missing user, `hasUnfinishedSync` rejects with exactly
"No user given." whatever the stored records are (no storage query is
consulted); with a present user it resolves true exactly when storage
holds at least one record for that user with the in-progress flag set. -/
theorem hasUnfinishedSync_spec (db : List SynchronizationRecord) (u : User) :
    hasUnfinishedSync none db = Except.error "No user given."
    ∧ (hasUnfinishedSync (some u) db = Except.ok true ↔
      ∃ r ∈ db, r.userId = u.id ∧ r.recursiveSyncRunning = true) := by
  constructor
  · rfl
  · simp only [hasUnfinishedSync, queryUnfinished, Except.ok.injEq,
      decide_eq_true_eq, ← List.countP_eq_length_filter, List.countP_pos_iff]
    constructor
    · rintro ⟨r, hr, hp⟩
      have hand := (Bool.and_eq_true _ _).mp hp
      refine ⟨r, hr, ?_, hand.1⟩
      simpa using hand.2
    · rintro ⟨r, hr, hid, hflag⟩
      exact ⟨r, hr, by simp [hid, hflag]⟩

end Pegasus
